import Mathlib

/-!
Shallow embedding of the `types` package of hide-org/gomcp.

Modelling conventions, used uniformly below:
* Go `float64` fields are modelled as `ℚ` (the values appearing in the
  validation rules are exact decimals, and JSON numbers are exact decimals).
* Go pointers (`*T`) are modelled as `Option T`; Go slices as `List`.
* Go string-typed enums (`Role`, `ContentType`, `LoggingLevel`) are `String`
  with the source's named constants.
* Fallible Go functions returning `(T, error)` become `Except String T`;
  the numeric interpolations of `fmt.Errorf` messages (`%f`, `%d`) are
  elided, string interpolations (`%s`) are kept as string appends.
* The JSON codec is modelled on parsed JSON values (trees), with the
  relevant `encoding/json` struct rules reproduced: `omitempty` drops nil
  pointers and empty slices, struct decoding ignores unknown keys, a later
  duplicate key overwrites an earlier one, JSON `null` leaves a field at
  its zero value (and sets a pointer field to nil), and decoding a
  non-object, non-null value into a struct is an error.
* Functional options (`func(*T) error`) become `T → Except String T`, and a
  constructor's option loop becomes `applyOptions`, which stops at the first
  failing option, wrapping its message the way the constructors do.
-/

namespace GoMcp

/-- A parsed JSON value. -/
inductive Json where
  | null
  | bool (b : Bool)
  | num (q : ℚ)
  | str (s : String)
  | arr (elems : List Json)
  | obj (fields : List (String × Json))

/-- Key lookup in a JSON object's field list.  `encoding/json` assigns the
    pairs of an object in order, so a later duplicate key overwrites an
    earlier one: the LAST binding of the key wins. -/
def jlookup : List (String × Json) → String → Option Json
  | [], _ => none
  | (k, v) :: rest, key =>
    match jlookup rest key with
    | some v' => some v'
    | none => if k = key then some v else none

/-- Decode a Go `string` struct field: missing or `null` leaves the zero
    value `""`; anything but a JSON string is an error. -/
def getStringField (fs : List (String × Json)) (key : String) : Except String String :=
  match jlookup fs key with
  | none => .ok ""
  | some .null => .ok ""
  | some (.str s) => .ok s
  | some _ => .error ("cannot unmarshal into string field " ++ key)

/-- Decode a Go `*string` struct field: missing or `null` is a nil pointer. -/
def getOptStringField (fs : List (String × Json)) (key : String) :
    Except String (Option String) :=
  match jlookup fs key with
  | none => .ok none
  | some .null => .ok none
  | some (.str s) => .ok (some s)
  | some _ => .error ("cannot unmarshal into string pointer field " ++ key)

/-- Decode a Go `*float64` struct field. -/
def getOptRatField (fs : List (String × Json)) (key : String) :
    Except String (Option ℚ) :=
  match jlookup fs key with
  | none => .ok none
  | some .null => .ok none
  | some (.num q) => .ok (some q)
  | some _ => .error ("cannot unmarshal into float64 pointer field " ++ key)

/-- Decode a Go `int` struct field: the JSON number must be integer valued. -/
def getIntField (fs : List (String × Json)) (key : String) : Except String Int :=
  match jlookup fs key with
  | none => .ok 0
  | some .null => .ok 0
  | some (.num q) => if q.den = 1 then .ok q.num
                     else .error ("cannot unmarshal number into int field " ++ key)
  | some _ => .error ("cannot unmarshal into int field " ++ key)

/-- Decode a list of JSON values as Go `[]string` elements (`null` leaves a
    zero-valued `""` element, as `encoding/json` does). -/
def decodeStringElems : List Json → Except String (List String)
  | [] => .ok []
  | .str s :: rest => (decodeStringElems rest).map (fun l => s :: l)
  | .null :: rest => (decodeStringElems rest).map (fun l => "" :: l)
  | _ :: _ => .error "cannot unmarshal into string element"

/-- Decode a Go `[]Role` struct field (`Role` is a string type): missing or
    `null` is a nil slice. -/
def getRolesField (fs : List (String × Json)) (key : String) :
    Except String (List String) :=
  match jlookup fs key with
  | none => .ok []
  | some .null => .ok []
  | some (.arr xs) => decodeStringElems xs
  | some _ => .error ("cannot unmarshal into role slice field " ++ key)

/-! ### content.go: roles, annotations and the Content tagged union -/

def RoleUser : String := "user"
def RoleAssistant : String := "assistant"

/-- `Annotations` from content.go: optional metadata for content.
    `Audience []Role` is the `audience` list, `Priority *float64` the
    optional `priority`. -/
structure Annotations where
  audience : List String
  priority : Option ℚ
deriving DecidableEq, Repr

/-- The audience loop of `Annotations.Validate`: every role must be
    `user` or `assistant`. -/
def checkAudience : List String → Except String Unit
  | [] => .ok ()
  | r :: rest =>
    if r = RoleUser ∨ r = RoleAssistant then checkAudience rest
    else .error ("invalid role in audience: " ++ r)

/-- `Annotations.Validate` (content.go), on the receiver pointer: a nil
    receiver validates; a set priority must lie in `[0, 1]`; every audience
    role must be a known role.  It only reads the value: nothing is clamped. -/
def annotationsValidate : Option Annotations → Except String Unit
  | none => .ok ()
  | some a =>
    match a.priority with
    | some q =>
      if q < 0 ∨ 1 < q then .error "priority must be between 0 and 1"
      else checkAudience a.audience
    | none => checkAudience a.audience

def ContentTypeText : String := "text"
def ContentTypeImage : String := "image"
def ContentTypeResource : String := "resource"

/-- `TextContent` from content.go. -/
structure TextContent where
  text : String
  annotations : Option Annotations
deriving DecidableEq, Repr

/-- `ImageContent` from content.go (`Data` is base64 text). -/
structure ImageContent where
  data : String
  mimeType : String
  annotations : Option Annotations
deriving DecidableEq, Repr

/-- `ResourceContent` from the resources file: a URI plus optional text,
    blob (base64), mime type and annotations, all pointer fields. -/
structure ResourceContent where
  uri : String
  text : Option String
  blob : Option String
  mimeType : Option String
  annotations : Option Annotations
deriving DecidableEq, Repr

/-- `Content` from content.go: the `type` discriminator plus one variant
    pointer per content kind ("only one of these will be non-nil"). -/
structure Content where
  type : String
  textContent : Option TextContent
  imageContent : Option ImageContent
  resourceContent : Option ResourceContent
deriving DecidableEq, Repr

/-! #### Marshalling (Content.MarshalJSON and the struct encoders it embeds)

`Content.MarshalJSON` emits an anonymous struct whose first field is the
discriminator and whose embedded variant pointer is flattened into the same
object, so the variant's fields follow the `type` field in declaration
order; `omitempty` fields vanish when nil / empty. -/

/-- The fields `encoding/json` emits for `Annotations`: `audience` unless
    empty, then `priority` unless nil (both `omitempty`). -/
def marshalAnnotations (a : Annotations) : Json :=
  .obj ((match a.audience with
         | [] => []
         | r :: rs => [("audience", .arr ((r :: rs).map .str))])
        ++ (match a.priority with
            | none => []
            | some q => [("priority", .num q)]))

/-- The `annotations` field of a variant's encoding, dropped when nil. -/
def annotationsField : Option Annotations → List (String × Json)
  | none => []
  | some a => [("annotations", marshalAnnotations a)]

/-- An `omitempty` `*string` field of an encoding. -/
def optStrField (key : String) : Option String → List (String × Json)
  | none => []
  | some s => [(key, .str s)]

/-- The flattened fields of an embedded `*TextContent`. -/
def textContentFields (tc : TextContent) : List (String × Json) :=
  ("text", .str tc.text) :: annotationsField tc.annotations

/-- The flattened fields of an embedded `*ImageContent`. -/
def imageContentFields (ic : ImageContent) : List (String × Json) :=
  ("data", .str ic.data) :: ("mimeType", .str ic.mimeType)
    :: annotationsField ic.annotations

/-- The flattened fields of an embedded `*ResourceContent`. -/
def resourceContentFields (rc : ResourceContent) : List (String × Json) :=
  ("uri", .str rc.uri)
    :: (optStrField "text" rc.text ++ optStrField "blob" rc.blob
        ++ optStrField "mimeType" rc.mimeType ++ annotationsField rc.annotations)

/-- `Content.MarshalJSON` (content.go): switch on the discriminator, fail
    when the matching variant pointer is nil or the discriminator is
    unknown, else emit the flat object. -/
def Content.marshalJSON (c : Content) : Except String Json :=
  if c.type = ContentTypeText then
    match c.textContent with
    | none => .error "text content is nil"
    | some tc => .ok (.obj (("type", .str ContentTypeText) :: textContentFields tc))
  else if c.type = ContentTypeImage then
    match c.imageContent with
    | none => .error "image content is nil"
    | some ic => .ok (.obj (("type", .str ContentTypeImage) :: imageContentFields ic))
  else if c.type = ContentTypeResource then
    match c.resourceContent with
    | none => .error "resource content is nil"
    | some rc => .ok (.obj (("type", .str ContentTypeResource) :: resourceContentFields rc))
  else .error ("unknown content type: " ++ c.type)

/-! #### Unmarshalling (Content.UnmarshalJSON and the struct decoders) -/

/-- `Annotations` struct decoding (invoked through the `annotations` key). -/
def decodeAnnotations (j : Json) : Except String Annotations :=
  match j with
  | .obj fs =>
    match getRolesField fs "audience" with
    | .error e => .error e
    | .ok aud =>
      match getOptRatField fs "priority" with
      | .error e => .error e
      | .ok pri => .ok ⟨aud, pri⟩
  | .null => .ok ⟨[], none⟩
  | _ => .error "cannot unmarshal into Annotations"

/-- Decode a Go `*Annotations` struct field: missing or `null` is nil. -/
def getOptAnnotationsField (fs : List (String × Json)) (key : String) :
    Except String (Option Annotations) :=
  match jlookup fs key with
  | none => .ok none
  | some .null => .ok none
  | some j => (decodeAnnotations j).map some

/-- `TextContent` struct decoding. -/
def decodeTextContent (j : Json) : Except String TextContent :=
  match j with
  | .obj fs =>
    match getStringField fs "text" with
    | .error e => .error e
    | .ok t =>
      match getOptAnnotationsField fs "annotations" with
      | .error e => .error e
      | .ok ann => .ok ⟨t, ann⟩
  | .null => .ok ⟨"", none⟩
  | _ => .error "cannot unmarshal into TextContent"

/-- `ImageContent` struct decoding. -/
def decodeImageContent (j : Json) : Except String ImageContent :=
  match j with
  | .obj fs =>
    match getStringField fs "data" with
    | .error e => .error e
    | .ok d =>
      match getStringField fs "mimeType" with
      | .error e => .error e
      | .ok m =>
        match getOptAnnotationsField fs "annotations" with
        | .error e => .error e
        | .ok ann => .ok ⟨d, m, ann⟩
  | .null => .ok ⟨"", "", none⟩
  | _ => .error "cannot unmarshal into ImageContent"

/-- `ResourceContent` struct decoding. -/
def decodeResourceContent (j : Json) : Except String ResourceContent :=
  match j with
  | .obj fs =>
    match getStringField fs "uri" with
    | .error e => .error e
    | .ok u =>
      match getOptStringField fs "text" with
      | .error e => .error e
      | .ok tx =>
        match getOptStringField fs "blob" with
        | .error e => .error e
        | .ok bl =>
          match getOptStringField fs "mimeType" with
          | .error e => .error e
          | .ok mt =>
            match getOptAnnotationsField fs "annotations" with
            | .error e => .error e
            | .ok ann => .ok ⟨u, tx, bl, mt, ann⟩
  | .null => .ok ⟨"", none, none, none, none⟩
  | _ => .error "cannot unmarshal into ResourceContent"

/-- Phase one of `Content.UnmarshalJSON`: decode only the discriminator
    (the `typeOnly` struct of content.go). -/
def decodeTypeOnly (j : Json) : Except String String :=
  match j with
  | .obj fs => getStringField fs "type"
  | .null => .ok ""
  | _ => .error "cannot unmarshal into typeOnly"

/-- `Content.UnmarshalJSON` (content.go), decoding into a fresh zero
    `Content` as `var content Content; json.Unmarshal(...)` does: decode the
    discriminator, then switch on it and decode the full object as the
    matching variant; any other discriminator is an unknown-type error. -/
def Content.unmarshalJSON (j : Json) : Except String Content :=
  match decodeTypeOnly j with
  | .error e => .error e
  | .ok t =>
    if t = ContentTypeText then
      match decodeTextContent j with
      | .error e => .error e
      | .ok tc => .ok ⟨ContentTypeText, some tc, none, none⟩
    else if t = ContentTypeImage then
      match decodeImageContent j with
      | .error e => .error e
      | .ok ic => .ok ⟨ContentTypeImage, none, some ic, none⟩
    else if t = ContentTypeResource then
      match decodeResourceContent j with
      | .error e => .error e
      | .ok rc => .ok ⟨ContentTypeResource, none, none, some rc⟩
    else .error ("unknown content type: " ++ t)

/-- `NewTextContent` (content.go): builds the tagged value directly; the
    function has no error return and performs no validation. -/
def NewTextContent (text : String) (annotations : Option Annotations) : Content :=
  ⟨ContentTypeText, some ⟨text, annotations⟩, none, none⟩

/-- `NewImageContent` (content.go). -/
def NewImageContent (data mimeType : String) (annotations : Option Annotations) :
    Content :=
  ⟨ContentTypeImage, none, some ⟨data, mimeType, annotations⟩, none⟩

/-- A `Content` value as the comment on the variant pointers intends it:
    the discriminator names one of the three variants, exactly that
    variant's pointer is populated, the other two are nil. -/
def validContent (c : Content) : Prop :=
  (c.type = ContentTypeText ∧ c.textContent.isSome ∧ c.imageContent = none
    ∧ c.resourceContent = none)
  ∨ (c.type = ContentTypeImage ∧ c.imageContent.isSome ∧ c.textContent = none
    ∧ c.resourceContent = none)
  ∨ (c.type = ContentTypeResource ∧ c.resourceContent.isSome ∧ c.textContent = none
    ∧ c.imageContent = none)

/-! ### errors file: ErrorInfo and its two-level tagged decode -/

def ErrParse : Int := -32700
def ErrInvalidRequest : Int := -32600
def ErrMethodNotFound : Int := -32601
def ErrInvalidParams : Int := -32602
def ErrInternal : Int := -32603

/-- `ValidationFailure`: a failing field and its message. -/
structure ValidationFailure where
  field : String
  error : String
deriving DecidableEq, Repr

/-- `ToolExecutionError`: a failing tool invocation. -/
structure ToolExecutionError where
  toolName : String
  errType : String
  details : String
deriving DecidableEq, Repr

/-- The closed set of `ErrorData` implementations in the source:
    `ValidationError` (a list of validation failures) and
    `ToolExecutionError`. -/
inductive ErrorData where
  | validation (failures : List ValidationFailure)
  | toolExecution (e : ToolExecutionError)
deriving DecidableEq, Repr

/-- `ErrorInfo`: a JSON-RPC error with optional structured data
    (`Data ErrorData` is an interface field, nil when absent). -/
structure ErrorInfo where
  code : Int
  message : String
  data : Option ErrorData
deriving DecidableEq, Repr

/-- `ValidationFailure` struct decoding (`field`, `error` keys). -/
def decodeValidationFailure (j : Json) : Except String ValidationFailure :=
  match j with
  | .obj fs =>
    match getStringField fs "field" with
    | .error e => .error e
    | .ok f =>
      match getStringField fs "error" with
      | .error e => .error e
      | .ok msg => .ok ⟨f, msg⟩
  | .null => .ok ⟨"", ""⟩
  | _ => .error "cannot unmarshal into ValidationFailure"

def decodeValidationFailures : List Json → Except String (List ValidationFailure)
  | [] => .ok []
  | j :: rest =>
    match decodeValidationFailure j with
    | .error e => .error e
    | .ok f => (decodeValidationFailures rest).map (fun l => f :: l)

/-- `ValidationError` struct decoding: its one field is the `validation`
    list (a nil slice when missing or null). -/
def decodeValidationError (j : Json) : Except String (List ValidationFailure) :=
  match j with
  | .obj fs =>
    match jlookup fs "validation" with
    | none => .ok []
    | some .null => .ok []
    | some (.arr xs) => decodeValidationFailures xs
    | some _ => .error "cannot unmarshal into validation list"
  | .null => .ok []
  | _ => .error "cannot unmarshal into ValidationError"

/-- `ToolExecutionError` struct decoding (`toolName`, `errorType`,
    `details` keys). -/
def decodeToolExecutionError (j : Json) : Except String ToolExecutionError :=
  match j with
  | .obj fs =>
    match getStringField fs "toolName" with
    | .error e => .error e
    | .ok tn =>
      match getStringField fs "errorType" with
      | .error e => .error e
      | .ok et =>
        match getStringField fs "details" with
        | .error e => .error e
        | .ok dt => .ok ⟨tn, et, dt⟩
  | .null => .ok ⟨"", "", ""⟩
  | _ => .error "cannot unmarshal into ToolExecutionError"

/-- The `temp` struct of `ErrorInfo.UnmarshalJSON`: read only the
    `errorType` tag out of the raw `data` payload. -/
def decodeErrorTypeTag (j : Json) : Except String String :=
  match j with
  | .obj fs => getStringField fs "errorType"
  | .null => .ok ""
  | _ => .error "cannot unmarshal into errorType temp struct"

/-- The `aux` struct of `ErrorInfo.UnmarshalJSON`: `code`, `message`, and
    the raw `data` payload (`json.RawMessage` is non-nil exactly when the
    key is present, including an explicit `null`). -/
def decodeErrorInfoAux (j : Json) : Except String (Int × String × Option Json) :=
  match j with
  | .obj fs =>
    match getIntField fs "code" with
    | .error e => .error e
    | .ok code =>
      match getStringField fs "message" with
      | .error e => .error e
      | .ok msg => .ok (code, msg, jlookup fs "data")
  | .null => .ok (0, "", none)
  | _ => .error "cannot unmarshal into ErrorInfo"

/-- `ErrorInfo.UnmarshalJSON` (errors file): decode the aux struct; when a
    raw `data` payload is present, first read its `errorType` tag, then
    dispatch on the outer code — `ErrInvalidParams` decodes a
    `ValidationError`, `ErrInternal` requires the tag `toolExecution` and
    otherwise fails with an unknown-error-type error, and any other code
    leaves `Data` nil. -/
def ErrorInfo.unmarshalJSON (j : Json) : Except String ErrorInfo :=
  match decodeErrorInfoAux j with
  | .error e => .error e
  | .ok (code, msg, dataRaw) =>
    match dataRaw with
    | none => .ok ⟨code, msg, none⟩
    | some d =>
      match decodeErrorTypeTag d with
      | .error e => .error e
      | .ok tag =>
        if code = ErrInvalidParams then
          match decodeValidationError d with
          | .error e => .error e
          | .ok fails => .ok ⟨code, msg, some (.validation fails)⟩
        else if code = ErrInternal then
          if tag = "toolExecution" then
            match decodeToolExecutionError d with
            | .error e => .error e
            | .ok te => .ok ⟨code, msg, some (.toolExecution te)⟩
          else .error ("unknown error type: " ++ tag)
        else .ok ⟨code, msg, none⟩

/-! ### Functional options and the validating constructors -/

/-- A constructor's option loop: apply each option in order to the value
    under construction, stopping at the first error and wrapping its
    message with the constructor's prefix (the `fmt.Errorf("...: %w", err)`
    of each constructor). -/
def applyOptions {α : Type} (wrap : String) :
    List (α → Except String α) → α → Except String α
  | [], a => .ok a
  | o :: rest, a =>
    match o a with
    | .error e => .error (wrap ++ e)
    | .ok a' => applyOptions wrap rest a'

/-! #### completion file: references, CompleteRequest, CompleteResult -/

/-- `Reference`: either a prompt or resource reference; only one of
    `Name`/`URI` should be set based on `Type`. -/
structure Reference where
  type : String
  name : Option String
  uri : Option String
deriving DecidableEq, Repr

/-- `NewPromptReference`. -/
def NewPromptReference (name : String) : Reference :=
  ⟨"ref/prompt", some name, none⟩

/-- `NewResourceReference`. -/
def NewResourceReference (uri : String) : Reference :=
  ⟨"ref/resource", none, some uri⟩

/-- `validateReference` (completion file): a prompt reference needs a
    non-empty name and must not carry a URI; a resource reference needs a
    non-empty URI and must not carry a name; any other type is invalid. -/
def validateReference (ref : Reference) : Except String Unit :=
  if ref.type = "ref/prompt" then
    match ref.name with
    | none => .error "prompt reference requires name"
    | some n =>
      if n = "" then .error "prompt reference requires name"
      else
        match ref.uri with
        | some _ => .error "prompt reference should not have URI"
        | none => .ok ()
  else if ref.type = "ref/resource" then
    match ref.uri with
    | none => .error "resource reference requires URI"
    | some u =>
      if u = "" then .error "resource reference requires URI"
      else
        match ref.name with
        | some _ => .error "resource reference should not have name"
        | none => .ok ()
  else .error ("invalid reference type: " ++ ref.type)

structure CompletionArg where
  name : String
  value : String
deriving DecidableEq, Repr

structure CompleteParams where
  ref : Reference
  argument : CompletionArg
deriving DecidableEq, Repr

structure CompleteRequest where
  method : String
  params : CompleteParams
deriving DecidableEq, Repr

/-- The value `NewCompleteRequest` builds before applying options. -/
def completeRequestBase (ref : Reference) (argName argValue : String) :
    CompleteRequest :=
  ⟨"completion/complete", ⟨ref, ⟨argName, argValue⟩⟩⟩

/-- `NewCompleteRequest` (completion file): validate the reference and the
    argument name, then apply the options in order. -/
def NewCompleteRequest (ref : Reference) (argName argValue : String)
    (opts : List (CompleteRequest → Except String CompleteRequest)) :
    Except String CompleteRequest :=
  match validateReference ref with
  | .error e => .error ("invalid reference: " ++ e)
  | .ok _ =>
    if argName = "" then .error "argument name cannot be empty"
    else applyOptions "applying complete request option: " opts
      (completeRequestBase ref argName argValue)

structure CompletionInfo where
  values : List String
  total : Option Int
  hasMore : Option Bool
deriving DecidableEq, Repr

structure CompleteResult where
  completion : CompletionInfo
deriving DecidableEq, Repr

/-- The value `NewCompleteResult` builds before applying options. -/
def completeResultBase (values : List String) : CompleteResult :=
  ⟨⟨values, none, none⟩⟩

/-- `NewCompleteResult` (completion file): at most 100 completion values,
    then apply the options in order. -/
def NewCompleteResult (values : List String)
    (opts : List (CompleteResult → Except String CompleteResult)) :
    Except String CompleteResult :=
  if 100 < values.length then .error "completion values cannot exceed 100 items"
  else applyOptions "applying complete result option: " opts (completeResultBase values)

/-- `WithResultTotal` (completion file): the declared total may not be less
    than the number of values already present. -/
def WithResultTotal (total : Int) : CompleteResult → Except String CompleteResult :=
  fun r =>
    if total < (r.completion.values.length : Int) then
      .error "total cannot be less than number of values"
    else .ok ⟨⟨r.completion.values, some total, r.completion.hasMore⟩⟩

/-- `WithHasMore` (completion file): always succeeds. -/
def WithHasMore (hasMore : Bool) : CompleteResult → Except String CompleteResult :=
  fun r => .ok ⟨⟨r.completion.values, r.completion.total, some hasMore⟩⟩

/-! #### message.go (progress half): ProgressNotification -/

structure ProgressParams where
  progressToken : Int
  progress : ℚ
  total : Option ℚ
deriving DecidableEq, Repr

structure ProgressNotification where
  method : String
  params : ProgressParams
deriving DecidableEq, Repr

/-- The value `NewProgressNotification` builds before applying options. -/
def progressBase (token : Int) (progress : ℚ) : ProgressNotification :=
  ⟨"notifications/progress", ⟨token, progress, none⟩⟩

/-- `NewProgressNotification` (message.go): progress must be non-negative,
    then apply the options in order. -/
def NewProgressNotification (token : Int) (progress : ℚ)
    (opts : List (ProgressNotification → Except String ProgressNotification)) :
    Except String ProgressNotification :=
  if progress < 0 then .error "progress cannot be negative"
  else applyOptions "applying progress notification option: " opts
    (progressBase token progress)

/-- `WithProgressTotal` (message.go): the total must be positive and at
    least the current progress. -/
def WithProgressTotal (total : ℚ) :
    ProgressNotification → Except String ProgressNotification := fun n =>
  if total ≤ 0 then .error "total must be positive"
  else if total < n.params.progress then .error "progress cannot exceed total"
  else .ok ⟨n.method, ⟨n.params.progressToken, n.params.progress, some total⟩⟩

/-- `NewProgressWithItems` (message.go): bounds-check the item counts,
    convert them to a percentage, and build a notification carrying
    `WithProgressTotal` of the item total. -/
def NewProgressWithItems (token completed total : Int) :
    Except String ProgressNotification :=
  if completed < 0 then .error "completed items cannot be negative"
  else if total ≤ 0 then .error "total items must be positive"
  else if total < completed then .error "completed items cannot exceed total items"
  else NewProgressNotification token ((completed : ℚ) / (total : ℚ) * 100)
    [WithProgressTotal (total : ℚ)]

/-! #### logging.go: LoggingMessageNotification -/

def LogLevelDebug : String := "debug"
def LogLevelInfo : String := "info"
def LogLevelNotice : String := "notice"
def LogLevelWarning : String := "warning"
def LogLevelError : String := "error"
def LogLevelCritical : String := "critical"
def LogLevelAlert : String := "alert"
def LogLevelEmergency : String := "emergency"

/-- `validateLoggingLevel` (logging.go). -/
def validateLoggingLevel (level : String) : Except String Unit :=
  if level = LogLevelDebug ∨ level = LogLevelInfo ∨ level = LogLevelNotice
      ∨ level = LogLevelWarning ∨ level = LogLevelError ∨ level = LogLevelCritical
      ∨ level = LogLevelAlert ∨ level = LogLevelEmergency then .ok ()
  else .error ("invalid logging level: " ++ level)

/-- `LoggingMessageParams`: the `Data interface{}` payload is an arbitrary
    JSON-marshallable value, modelled as a JSON tree; the Go `nil` payload
    is the `none` of the constructor argument below. -/
structure LoggingMessageParams where
  level : String
  data : Json
  logger : Option String

structure LoggingMessageNotification where
  method : String
  params : LoggingMessageParams

/-- The value `NewLoggingMessage` builds before applying options. -/
def loggingMessageBase (level : String) (d : Json) : LoggingMessageNotification :=
  ⟨"notifications/message", ⟨level, d, none⟩⟩

/-- `NewLoggingMessage` (logging.go): the level must be a known level and
    the data must not be nil, then apply the options in order. -/
def NewLoggingMessage (level : String) (data : Option Json)
    (opts : List (LoggingMessageNotification → Except String LoggingMessageNotification)) :
    Except String LoggingMessageNotification :=
  match validateLoggingLevel level with
  | .error e => .error e
  | .ok _ =>
    match data with
    | none => .error "log data cannot be nil"
    | some d => applyOptions "applying logging message option: " opts
        (loggingMessageBase level d)

/-! #### resources file: ResourceContent construction -/

/-- The value `NewResourceContent` builds before applying options. -/
def resourceContentBase (uri : String) : ResourceContent :=
  ⟨uri, none, none, none, none⟩

/-- `NewResourceContent` (resources file): the URI must be non-empty; after
    the options have been applied, exactly one of `text` and `blob` must be
    set, and both-set or neither-set is rejected. -/
def NewResourceContent (uri : String)
    (opts : List (ResourceContent → Except String ResourceContent)) :
    Except String ResourceContent :=
  if uri = "" then .error "resource URI cannot be empty"
  else
    match applyOptions "applying content option: " opts (resourceContentBase uri) with
    | .error e => .error e
    | .ok rc =>
      if (rc.text.isSome && rc.blob.isSome) || (rc.text.isNone && rc.blob.isNone) then
        .error "exactly one of text or blob must be set"
      else .ok rc

/-- `WithContentText` (resources file). -/
def WithContentText (text : String) : ResourceContent → Except String ResourceContent :=
  fun rc =>
    match rc.blob with
    | some _ => .error "cannot set text when blob is already set"
    | none => .ok ⟨rc.uri, some text, rc.blob, rc.mimeType, rc.annotations⟩

/-- `WithContentBlob` (resources file). -/
def WithContentBlob (blob : String) : ResourceContent → Except String ResourceContent :=
  fun rc =>
    match rc.text with
    | some _ => .error "cannot set blob when text is already set"
    | none => .ok ⟨rc.uri, rc.text, some blob, rc.mimeType, rc.annotations⟩

/-- `WithContentMimeType` (resources file). -/
def WithContentMimeType (mimeType : String) :
    ResourceContent → Except String ResourceContent := fun rc =>
  .ok ⟨rc.uri, rc.text, rc.blob, some mimeType, rc.annotations⟩

/-! ### Round-trip lemmas for the Content codec -/

lemma decodeStringElems_map (xs : List String) :
    decodeStringElems (xs.map Json.str) = .ok xs := by
  induction xs with
  | nil => rfl
  | cons x xs ih => simp [decodeStringElems, ih, Except.map]

lemma marshalAnnotations_isObj (a : Annotations) :
    ∃ fs, marshalAnnotations a = .obj fs :=
  ⟨_, rfl⟩

lemma decodeAnnotations_marshal (a : Annotations) :
    decodeAnnotations (marshalAnnotations a) = .ok a := by
  obtain ⟨aud, pri⟩ := a
  cases aud with
  | nil => cases pri <;> rfl
  | cons r rs =>
    cases pri <;>
      simp [marshalAnnotations, decodeAnnotations, getRolesField, getOptRatField,
        jlookup, decodeStringElems, decodeStringElems_map, Except.map]

lemma text_variant_roundtrip (tc : TextContent) :
    Content.marshalJSON ⟨ContentTypeText, some tc, none, none⟩
        = .ok (.obj (("type", .str ContentTypeText) :: textContentFields tc))
      ∧ jlookup (("type", .str ContentTypeText) :: textContentFields tc) "type"
        = some (.str ContentTypeText)
      ∧ Content.unmarshalJSON (.obj (("type", .str ContentTypeText) :: textContentFields tc))
        = .ok ⟨ContentTypeText, some tc, none, none⟩ := by
  obtain ⟨t, ann⟩ := tc
  refine ⟨rfl, ?_, ?_⟩ <;>
  · cases ann with
    | none =>
      simp [textContentFields, annotationsField, jlookup, Content.unmarshalJSON,
        decodeTypeOnly, getStringField, decodeTextContent, getOptAnnotationsField,
        ContentTypeText, ContentTypeImage, ContentTypeResource]
    | some a =>
      obtain ⟨afs, hafs⟩ := marshalAnnotations_isObj a
      have hdec := decodeAnnotations_marshal a
      rw [hafs] at hdec
      simp [textContentFields, annotationsField, hafs, hdec, jlookup,
        Content.unmarshalJSON, decodeTypeOnly, getStringField, decodeTextContent,
        getOptAnnotationsField, Except.map, ContentTypeText, ContentTypeImage,
        ContentTypeResource]

lemma image_variant_roundtrip (ic : ImageContent) :
    Content.marshalJSON ⟨ContentTypeImage, none, some ic, none⟩
        = .ok (.obj (("type", .str ContentTypeImage) :: imageContentFields ic))
      ∧ jlookup (("type", .str ContentTypeImage) :: imageContentFields ic) "type"
        = some (.str ContentTypeImage)
      ∧ Content.unmarshalJSON (.obj (("type", .str ContentTypeImage) :: imageContentFields ic))
        = .ok ⟨ContentTypeImage, none, some ic, none⟩ := by
  obtain ⟨d, m, ann⟩ := ic
  refine ⟨rfl, ?_, ?_⟩ <;>
  · cases ann with
    | none =>
      simp [imageContentFields, annotationsField, jlookup, Content.unmarshalJSON,
        decodeTypeOnly, getStringField, decodeImageContent, getOptAnnotationsField,
        ContentTypeText, ContentTypeImage, ContentTypeResource]
    | some a =>
      obtain ⟨afs, hafs⟩ := marshalAnnotations_isObj a
      have hdec := decodeAnnotations_marshal a
      rw [hafs] at hdec
      simp [imageContentFields, annotationsField, hafs, hdec, jlookup,
        Content.unmarshalJSON, decodeTypeOnly, getStringField, decodeImageContent,
        getOptAnnotationsField, Except.map, ContentTypeText, ContentTypeImage,
        ContentTypeResource]

lemma resource_variant_roundtrip (rc : ResourceContent) :
    Content.marshalJSON ⟨ContentTypeResource, none, none, some rc⟩
        = .ok (.obj (("type", .str ContentTypeResource) :: resourceContentFields rc))
      ∧ jlookup (("type", .str ContentTypeResource) :: resourceContentFields rc) "type"
        = some (.str ContentTypeResource)
      ∧ Content.unmarshalJSON
          (.obj (("type", .str ContentTypeResource) :: resourceContentFields rc))
        = .ok ⟨ContentTypeResource, none, none, some rc⟩ := by
  obtain ⟨u, tx, bl, mt, ann⟩ := rc
  refine ⟨rfl, ?_, ?_⟩ <;>
  · cases ann with
    | none =>
      cases tx <;> cases bl <;> cases mt <;>
        simp [resourceContentFields, optStrField, annotationsField, jlookup,
          Content.unmarshalJSON, decodeTypeOnly, getStringField, getOptStringField,
          decodeResourceContent, getOptAnnotationsField,
          ContentTypeText, ContentTypeImage, ContentTypeResource]
    | some a =>
      obtain ⟨afs, hafs⟩ := marshalAnnotations_isObj a
      have hdec := decodeAnnotations_marshal a
      rw [hafs] at hdec
      cases tx <;> cases bl <;> cases mt <;>
        simp [resourceContentFields, optStrField, annotationsField, hafs, hdec,
          jlookup, Content.unmarshalJSON, decodeTypeOnly, getStringField,
          getOptStringField, decodeResourceContent, getOptAnnotationsField,
          Except.map, ContentTypeText, ContentTypeImage, ContentTypeResource]

/-- C1: for every valid `Content` value (discriminator naming the one
    populated variant, the other variant pointers nil), `MarshalJSON`
    succeeds with a flat object whose `type` field is the discriminator of
    the populated variant, and `UnmarshalJSON` of that object returns a
    value equal to the original. -/
theorem content_roundtrip (c : Content) (h : validContent c) :
    ∃ fs, Content.marshalJSON c = .ok (.obj fs)
      ∧ jlookup fs "type" = some (.str c.type)
      ∧ Content.unmarshalJSON (.obj fs) = .ok c := by
  obtain ⟨ty, otc, oic, orc⟩ := c
  rcases h with ⟨hty, hs, h1, h2⟩ | ⟨hty, hs, h1, h2⟩ | ⟨hty, hs, h1, h2⟩ <;>
    dsimp only at hty hs h1 h2 ⊢ <;> subst hty <;> subst h1 <;> subst h2
  · obtain ⟨tc, rfl⟩ := Option.isSome_iff_exists.mp hs
    exact ⟨_, (text_variant_roundtrip tc).1, (text_variant_roundtrip tc).2.1,
      (text_variant_roundtrip tc).2.2⟩
  · obtain ⟨ic, rfl⟩ := Option.isSome_iff_exists.mp hs
    exact ⟨_, (image_variant_roundtrip ic).1, (image_variant_roundtrip ic).2.1,
      (image_variant_roundtrip ic).2.2⟩
  · obtain ⟨rc, rfl⟩ := Option.isSome_iff_exists.mp hs
    exact ⟨_, (resource_variant_roundtrip rc).1, (resource_variant_roundtrip rc).2.1,
      (resource_variant_roundtrip rc).2.2⟩

/-- Witness for C1, at the spec's own scenario: a text content with body
    `Hello, world!`, audience `assistant`, priority `0.8`. -/
theorem content_roundtrip_witness :
    validContent ⟨ContentTypeText, some ⟨"Hello, world!", some ⟨[RoleAssistant], some (4/5)⟩⟩,
        none, none⟩
    ∧ ∃ fs,
      Content.marshalJSON ⟨ContentTypeText,
          some ⟨"Hello, world!", some ⟨[RoleAssistant], some (4/5)⟩⟩, none, none⟩
        = .ok (.obj fs)
      ∧ jlookup fs "type" = some (.str ContentTypeText)
      ∧ Content.unmarshalJSON (.obj fs)
        = .ok ⟨ContentTypeText, some ⟨"Hello, world!", some ⟨[RoleAssistant], some (4/5)⟩⟩,
            none, none⟩ :=
  ⟨Or.inl ⟨rfl, rfl, rfl, rfl⟩,
   content_roundtrip _ (Or.inl ⟨rfl, rfl, rfl, rfl⟩)⟩

/-- C3: a JSON object whose `type` field decodes to a string other than
    `text`, `image` or `resource` makes `Content.UnmarshalJSON` fail with
    the unknown-content-type error; and whenever `Content.UnmarshalJSON`
    succeeds, exactly one variant pointer is populated and it agrees with
    the `Type` discriminator — a zero-value variant is never returned. -/
theorem unmarshal_unknown_type :
    (∀ fs t, getStringField fs "type" = .ok t →
      t ≠ ContentTypeText → t ≠ ContentTypeImage → t ≠ ContentTypeResource →
      Content.unmarshalJSON (.obj fs) = .error ("unknown content type: " ++ t)) ∧
    (∀ j c, Content.unmarshalJSON j = .ok c → validContent c) := by
  constructor
  · intro fs t h h1 h2 h3
    simp [Content.unmarshalJSON, decodeTypeOnly, h, h1, h2, h3]
  · intro j c h
    unfold Content.unmarshalJSON at h
    cases hd : decodeTypeOnly j with
    | error e => rw [hd] at h; exact absurd h (by simp)
    | ok t =>
      rw [hd] at h
      dsimp only at h
      split_ifs at h with e1 e2 e3
      · cases hh : decodeTextContent j with
        | error e => rw [hh] at h; exact absurd h (by simp)
        | ok tc =>
          rw [hh] at h
          injection h with h'
          subst h'
          exact Or.inl ⟨rfl, rfl, rfl, rfl⟩
      · cases hh : decodeImageContent j with
        | error e => rw [hh] at h; exact absurd h (by simp)
        | ok ic =>
          rw [hh] at h
          injection h with h'
          subst h'
          exact Or.inr (Or.inl ⟨rfl, rfl, rfl, rfl⟩)
      · cases hh : decodeResourceContent j with
        | error e => rw [hh] at h; exact absurd h (by simp)
        | ok rc =>
          rw [hh] at h
          injection h with h'
          subst h'
          exact Or.inr (Or.inr ⟨rfl, rfl, rfl, rfl⟩)

/-- Witness for C3, at the discriminator `bogus`. -/
theorem unmarshal_unknown_type_witness :
    Content.unmarshalJSON (.obj [("type", .str "bogus")])
      = .error ("unknown content type: " ++ "bogus") :=
  unmarshal_unknown_type.1 [("type", .str "bogus")] "bogus" rfl
    (by decide) (by decide) (by decide)

/-! ### ErrorInfo decoding (C2) -/

/-- C2 counterexample: the object `{"code": 123, "message": "m", "data": 5}`
    has a non-null `data` field and a code mapped to no known variant, yet
    `ErrorInfo.UnmarshalJSON` fails: the `errorType` temp struct is decoded
    from the raw `data` payload before the code switch, and `5` is not an
    object. -/
theorem errorInfo_nonnull_data_counterexample :
    ErrorInfo.unmarshalJSON
        (.obj [("code", .num 123), ("message", .str "m"), ("data", .num 5)])
      = .error "cannot unmarshal into errorType temp struct"
    ∧ (123 : Int) ≠ ErrInvalidParams ∧ (123 : Int) ≠ ErrInternal :=
  ⟨rfl, by decide, by decide⟩

/-- C2 amended: when the `data` field holds a JSON object from which the
    secondary `errorType` tag decodes: an error code mapped to no known
    variant decodes successfully with `Data` left empty and code and
    message populated, while the recognized code `ErrInternal` with a tag
    other than `toolExecution` fails with the unknown-error-type error. -/
theorem errorInfo_decode_dispatch :
    (∀ fs code msg dfs tag,
      getIntField fs "code" = .ok code →
      getStringField fs "message" = .ok msg →
      jlookup fs "data" = some (.obj dfs) →
      getStringField dfs "errorType" = .ok tag →
      code ≠ ErrInvalidParams → code ≠ ErrInternal →
      ErrorInfo.unmarshalJSON (.obj fs) = .ok ⟨code, msg, none⟩) ∧
    (∀ fs msg dfs tag,
      getIntField fs "code" = .ok ErrInternal →
      getStringField fs "message" = .ok msg →
      jlookup fs "data" = some (.obj dfs) →
      getStringField dfs "errorType" = .ok tag →
      tag ≠ "toolExecution" →
      ErrorInfo.unmarshalJSON (.obj fs) = .error ("unknown error type: " ++ tag)) := by
  constructor
  · intro fs code msg dfs tag h1 h2 h3 h4 h5 h6
    simp [ErrorInfo.unmarshalJSON, decodeErrorInfoAux, decodeErrorTypeTag,
      h1, h2, h3, h4, h5, h6]
  · intro fs msg dfs tag h1 h2 h3 h4 h5
    simp [ErrorInfo.unmarshalJSON, decodeErrorInfoAux, decodeErrorTypeTag,
      h1, h2, h3, h4, h5, ErrInvalidParams, ErrInternal]

/-- Witness for the amended C2, at code 42 with an empty-object data
    payload. -/
theorem errorInfo_decode_dispatch_witness :
    ErrorInfo.unmarshalJSON
        (.obj [("code", .num 42), ("message", .str "m"), ("data", .obj [])])
      = .ok ⟨42, "m", none⟩ :=
  errorInfo_decode_dispatch.1
    [("code", .num 42), ("message", .str "m"), ("data", .obj [])]
    42 "m" [] "" rfl rfl rfl rfl (by decide) (by decide)

/-! ### Annotations validation versus construction (C4) -/

/-- C4 counterexample: `NewTextContent` has no error return and performs no
    validation, so a content value whose annotations carry priority `3/2`
    (outside `[0,1]`) is constructed unchanged — not rejected and not
    clamped — even though `Annotations.Validate` rejects that priority. -/
theorem newTextContent_no_validation :
    NewTextContent "x" (some ⟨[], some (3/2)⟩)
      = ⟨ContentTypeText, some ⟨"x", some ⟨[], some (3/2)⟩⟩, none, none⟩
    ∧ annotationsValidate (some ⟨[], some (3/2)⟩)
      = .error "priority must be between 0 and 1" := by
  refine ⟨rfl, ?_⟩
  norm_num [annotationsValidate]

lemma checkAudience_ok_iff (aud : List String) :
    checkAudience aud = .ok () ↔ ∀ r ∈ aud, r = RoleUser ∨ r = RoleAssistant := by
  induction aud with
  | nil => simp [checkAudience]
  | cons r rs ih =>
    by_cases hr : r = RoleUser ∨ r = RoleAssistant
    · simp [checkAudience, hr, ih]
    · simp [checkAudience, hr]

/-- C4 amended: `Annotations.Validate` accepts a set priority exactly when
    it lies in the inclusive range `[0,1]` and every audience role is
    `user` or `assistant` — in particular priorities 0 and 1 pass and
    priority `3/2` fails — and it never modifies the value; but
    `NewTextContent` performs no validation at construction time: it
    returns the content value unconditionally. -/
theorem annotationsValidation_spec :
    (∀ aud pri, annotationsValidate (some ⟨aud, some pri⟩) = .ok ()
      ↔ (0 ≤ pri ∧ pri ≤ 1) ∧ ∀ r ∈ aud, r = RoleUser ∨ r = RoleAssistant) ∧
    annotationsValidate (some ⟨[], some 0⟩) = .ok () ∧
    annotationsValidate (some ⟨[], some 1⟩) = .ok () ∧
    annotationsValidate (some ⟨[], some (3/2)⟩)
      = .error "priority must be between 0 and 1" ∧
    (∀ text ann, NewTextContent text ann
      = ⟨ContentTypeText, some ⟨text, ann⟩, none, none⟩) := by
  refine ⟨?_, by norm_num [annotationsValidate, checkAudience],
    by norm_num [annotationsValidate, checkAudience],
    by norm_num [annotationsValidate], fun text ann => rfl⟩
  intro aud pri
  by_cases hp : pri < 0 ∨ 1 < pri
  · simp only [annotationsValidate, if_pos hp]
    constructor
    · intro h; exact absurd h (by simp)
    · rintro ⟨⟨h0, h1⟩, -⟩
      rcases hp with hp | hp <;> linarith
  · have h0 : 0 ≤ pri := by rcases not_or.mp hp with ⟨h, -⟩; linarith [not_lt.mp h]
    have h1 : pri ≤ 1 := by rcases not_or.mp hp with ⟨-, h⟩; linarith [not_lt.mp h]
    simp [annotationsValidate, if_neg hp, checkAudience_ok_iff, h0, h1]

/-- Witness for the amended C4, at audience `assistant`, priority `4/5`. -/
theorem annotationsValidation_spec_witness :
    annotationsValidate (some ⟨[RoleAssistant], some (4/5)⟩) = .ok () :=
  (annotationsValidation_spec.1 [RoleAssistant] (4/5)).mpr
    ⟨⟨by norm_num, by norm_num⟩, by decide⟩

/-! ### ResourceContent construction (C5) -/

/-- C5: whenever `NewResourceContent` succeeds, exactly one of `text` and
    `blob` is set in the result; and for a non-empty URI and options whose
    sequential application succeeds, construction fails whenever both or
    neither of `text` and `blob` ended up set, and succeeds (with that very
    value) whenever exactly one did — the check runs at construction, so no
    constructed value can violate it later. -/
theorem newResourceContent_exactly_one :
    (∀ uri opts rc, NewResourceContent uri opts = .ok rc →
      (rc.text.isSome ∧ rc.blob = none) ∨ (rc.text = none ∧ rc.blob.isSome)) ∧
    (∀ uri opts rc, uri ≠ "" →
      applyOptions "applying content option: " opts (resourceContentBase uri) = .ok rc →
      ((rc.text.isSome ∧ rc.blob.isSome →
          NewResourceContent uri opts = .error "exactly one of text or blob must be set")
        ∧ (rc.text = none ∧ rc.blob = none →
          NewResourceContent uri opts = .error "exactly one of text or blob must be set")
        ∧ (((rc.text.isSome ∧ rc.blob = none) ∨ (rc.text = none ∧ rc.blob.isSome)) →
          NewResourceContent uri opts = .ok rc))) := by
  constructor
  · intro uri opts rc h
    unfold NewResourceContent at h
    by_cases hu : uri = ""
    · rw [if_pos hu] at h; exact absurd h (by simp)
    · rw [if_neg hu] at h
      cases ha : applyOptions "applying content option: " opts (resourceContentBase uri) with
      | error e => rw [ha] at h; exact absurd h (by simp)
      | ok rc' =>
        rw [ha] at h
        dsimp only at h
        by_cases hc : ((rc'.text.isSome && rc'.blob.isSome)
            || (rc'.text.isNone && rc'.blob.isNone)) = true
        · rw [if_pos hc] at h; exact absurd h (by simp)
        · rw [if_neg hc] at h
          injection h with h'
          subst h'
          cases htx : rc'.text <;> cases hbl : rc'.blob <;> simp_all
  · intro uri opts rc hu ha
    refine ⟨?_, ?_, ?_⟩
    · rintro ⟨h1, h2⟩
      unfold NewResourceContent
      rw [if_neg hu, ha]
      dsimp only
      simp [h1, h2]
    · rintro ⟨h1, h2⟩
      unfold NewResourceContent
      rw [if_neg hu, ha]
      dsimp only
      simp [h1, h2]
    · rintro (⟨h1, h2⟩ | ⟨h1, h2⟩) <;>
      · unfold NewResourceContent
        rw [if_neg hu, ha]
        dsimp only
        simp [h1, h2, Option.ne_none_iff_isSome]

/-- Witness for C5: text-only content succeeds with exactly `text` set. -/
theorem newResourceContent_exactly_one_witness :
    NewResourceContent "file:///a" [WithContentText "body"]
      = .ok ⟨"file:///a", some "body", none, none, none⟩ :=
  ((newResourceContent_exactly_one.2 "file:///a" [WithContentText "body"]
      ⟨"file:///a", some "body", none, none, none⟩ (by decide) rfl).2.2)
    (Or.inl ⟨rfl, rfl⟩)

/-! ### All-or-nothing option application (C6) -/

lemma applyOptions_aborts {α : Type} (wrap : String) :
    ∀ (opts : List (α → Except String α)) (i : Nat) (hi : i < opts.length) (a s : α),
      applyOptions wrap (opts.take i) a = .ok s →
      (∃ e, opts.get ⟨i, hi⟩ s = .error e) →
      ∃ e', applyOptions wrap opts a = .error e'
  | [], _, hi, _, _, _, _ => absurd hi (by simp)
  | o :: rest, 0, hi, a, s, hpre, ⟨e, he⟩ => by
    obtain rfl : a = s := by simpa [applyOptions] using hpre
    have ho : o a = .error e := by simpa using he
    exact ⟨wrap ++ e, by simp [applyOptions, ho]⟩
  | o :: rest, i + 1, hi, a, s, hpre, ⟨e, he⟩ => by
    rw [List.take_succ_cons] at hpre
    cases ho : o a with
    | error e2 => simp [applyOptions, ho] at hpre
    | ok a' =>
      simp only [applyOptions, ho] at hpre
      obtain ⟨e', he'⟩ := applyOptions_aborts wrap rest i (by simpa using hi) a' s
        hpre ⟨e, by simpa using he⟩
      exact ⟨e', by simp [applyOptions, ho, he']⟩

/-- C6: for each constructor taking an ordered option list
    (`NewCompleteRequest`, `NewProgressNotification`, `NewLoggingMessage`),
    if the i-th option fails on the value reached after the options before
    it, the constructor as a whole returns an error (the Go functions
    return `(nil, err)`; the error carries no value). -/
theorem option_failure_aborts_construction :
    (∀ ref argName argValue opts i (hi : i < opts.length) s,
      applyOptions "applying complete request option: " (opts.take i)
          (completeRequestBase ref argName argValue) = .ok s →
      (∃ e, opts.get ⟨i, hi⟩ s = .error e) →
      ∃ e', NewCompleteRequest ref argName argValue opts = .error e') ∧
    (∀ token progress opts i (hi : i < opts.length) s,
      applyOptions "applying progress notification option: " (opts.take i)
          (progressBase token progress) = .ok s →
      (∃ e, opts.get ⟨i, hi⟩ s = .error e) →
      ∃ e', NewProgressNotification token progress opts = .error e') ∧
    (∀ level d opts i (hi : i < opts.length) s,
      applyOptions "applying logging message option: " (opts.take i)
          (loggingMessageBase level d) = .ok s →
      (∃ e, opts.get ⟨i, hi⟩ s = .error e) →
      ∃ e', NewLoggingMessage level (some d) opts = .error e') := by
  refine ⟨?_, ?_, ?_⟩
  · intro ref argName argValue opts i hi s hpre herr
    cases hv : validateReference ref with
    | error e => exact ⟨"invalid reference: " ++ e, by simp [NewCompleteRequest, hv]⟩
    | ok u =>
      by_cases hn : argName = ""
      · exact ⟨"argument name cannot be empty", by simp [NewCompleteRequest, hv, hn]⟩
      · obtain ⟨e', he'⟩ := applyOptions_aborts _ opts i hi _ s hpre herr
        exact ⟨e', by simp [NewCompleteRequest, hv, hn, he']⟩
  · intro token progress opts i hi s hpre herr
    by_cases hp : progress < 0
    · exact ⟨"progress cannot be negative", by simp [NewProgressNotification, hp]⟩
    · obtain ⟨e', he'⟩ := applyOptions_aborts _ opts i hi _ s hpre herr
      exact ⟨e', by simp [NewProgressNotification, hp, he']⟩
  · intro level d opts i hi s hpre herr
    cases hv : validateLoggingLevel level with
    | error e => exact ⟨e, by simp [NewLoggingMessage, hv]⟩
    | ok u =>
      obtain ⟨e', he'⟩ := applyOptions_aborts _ opts i hi _ s hpre herr
      exact ⟨e', by simp [NewLoggingMessage, hv, he']⟩

/-- Witness for C6: a failing option aborts `NewProgressNotification`. -/
theorem option_failure_aborts_construction_witness :
    ∃ e', NewProgressNotification 1 0 [fun _ => Except.error "boom"] = .error e' :=
  option_failure_aborts_construction.2.1 1 0 [fun _ => Except.error "boom"] 0
    (by decide) (progressBase 1 0) rfl ⟨"boom", rfl⟩

/-! ### CompleteResult limits (C7) -/

/-- C7: `NewCompleteResult` fails for 101 or more values whatever the
    options, succeeds (with no options) for exactly 100 values, and
    `WithResultTotal` fails exactly when the supplied total is below the
    number of values already in the result. -/
theorem completeResult_limits :
    (∀ values opts, 101 ≤ values.length →
      NewCompleteResult values opts = .error "completion values cannot exceed 100 items") ∧
    (∀ values : List String, values.length = 100 →
      NewCompleteResult values [] = .ok (completeResultBase values)) ∧
    (∀ total r, (∃ e, WithResultTotal total r = .error e)
      ↔ total < (r.completion.values.length : Int)) := by
  refine ⟨?_, ?_, ?_⟩
  · intro values opts h
    have h' : 100 < values.length := h
    simp [NewCompleteResult, h']
  · intro values h
    have h' : ¬ 100 < values.length := by omega
    simp [NewCompleteResult, h', applyOptions]
  · intro total r
    constructor
    · rintro ⟨e, he⟩
      by_cases hc : total < (r.completion.values.length : Int)
      · exact hc
      · simp [WithResultTotal, hc] at he
    · intro hc
      exact ⟨"total cannot be less than number of values", by simp [WithResultTotal, hc]⟩

/-- Witness for C7 at 100 values, 101 values, and total 2 against 3
    values. -/
theorem completeResult_limits_witness :
    NewCompleteResult (List.replicate 100 "v") []
      = .ok (completeResultBase (List.replicate 100 "v"))
    ∧ NewCompleteResult (List.replicate 101 "v") []
      = .error "completion values cannot exceed 100 items"
    ∧ ∃ e, WithResultTotal 2 (completeResultBase ["a", "b", "c"]) = .error e :=
  ⟨completeResult_limits.2.1 _ (by simp),
   completeResult_limits.1 _ _ (by simp),
   (completeResult_limits.2.2 2 (completeResultBase ["a", "b", "c"])).mpr
     (by norm_num [completeResultBase])⟩

/-! ### Progress notification limits (C8) -/

/-- C8: `NewProgressNotification` fails for every negative progress
    whatever the options, succeeds with no options for every non-negative
    progress, and `WithProgressTotal total` fails whenever `total` is less
    than the notification's current progress. -/
theorem progressNotification_limits :
    (∀ token progress opts, progress < 0 →
      NewProgressNotification token progress opts = .error "progress cannot be negative") ∧
    (∀ token progress, 0 ≤ progress →
      NewProgressNotification token progress [] = .ok (progressBase token progress)) ∧
    (∀ total n, total < n.params.progress →
      ∃ e, WithProgressTotal total n = .error e) := by
  refine ⟨?_, ?_, ?_⟩
  · intro token progress opts h
    simp [NewProgressNotification, h]
  · intro token progress h
    simp [NewProgressNotification, not_lt.mpr h, applyOptions]
  · intro total n h
    by_cases ht : total ≤ 0
    · exact ⟨"total must be positive", by simp [WithProgressTotal, ht]⟩
    · exact ⟨"progress cannot exceed total", by simp [WithProgressTotal, ht, h]⟩

/-- Witness for C8 at progress -1, progress 1/2, and total 1 against
    progress 2. -/
theorem progressNotification_limits_witness :
    NewProgressNotification 1 (-1) [] = .error "progress cannot be negative"
    ∧ NewProgressNotification 1 (1/2) [] = .ok (progressBase 1 (1/2))
    ∧ ∃ e, WithProgressTotal 1 (progressBase 1 2) = .error e :=
  ⟨progressNotification_limits.1 1 (-1) [] (by norm_num),
   progressNotification_limits.2.1 1 (1/2) (by norm_num),
   progressNotification_limits.2.2 1 (progressBase 1 2) (by norm_num [progressBase])⟩

/-! ### Reference validation (C9) -/

/-- C9: `validateReference` accepts a prompt reference exactly when it has
    a non-empty name and no URI (so a prompt reference that also sets a URI
    is rejected), accepts a resource reference exactly when it has a
    non-empty URI and no name, and rejects every other reference type. -/
theorem validateReference_spec :
    (∀ ref, ref.type = "ref/prompt" →
      (validateReference ref = .ok ()
        ↔ (∃ n, ref.name = some n ∧ n ≠ "") ∧ ref.uri = none)) ∧
    (∀ ref, ref.type = "ref/resource" →
      (validateReference ref = .ok ()
        ↔ (∃ u, ref.uri = some u ∧ u ≠ "") ∧ ref.name = none)) ∧
    (∀ ref, ref.type ≠ "ref/prompt" → ref.type ≠ "ref/resource" →
      validateReference ref = .error ("invalid reference type: " ++ ref.type)) := by
  refine ⟨?_, ?_, ?_⟩
  · intro ref h
    obtain ⟨ty, nm, ur⟩ := ref
    dsimp only at h
    subst h
    cases nm with
    | none => simp [validateReference]
    | some n =>
      by_cases hn : n = ""
      · subst hn; simp [validateReference]
      · cases ur with
        | none => simp [validateReference, hn]
        | some u => simp [validateReference, hn]
  · intro ref h
    obtain ⟨ty, nm, ur⟩ := ref
    dsimp only at h
    subst h
    cases ur with
    | none => simp [validateReference]
    | some u =>
      by_cases hu : u = ""
      · subst hu; simp [validateReference]
      · cases nm with
        | none => simp [validateReference, hu]
        | some n => simp [validateReference, hu]
  · intro ref h1 h2
    obtain ⟨ty, nm, ur⟩ := ref
    dsimp only at h1 h2
    simp [validateReference, h1, h2]

/-- Witness for C9: a well-formed prompt reference and a well-formed
    resource reference pass; an unknown type fails. -/
theorem validateReference_spec_witness :
    validateReference ⟨"ref/prompt", some "p", none⟩ = .ok ()
    ∧ validateReference ⟨"ref/resource", none, some "file:///x"⟩ = .ok ()
    ∧ validateReference ⟨"ref/other", some "p", none⟩
      = .error ("invalid reference type: " ++ "ref/other") :=
  ⟨(validateReference_spec.1 _ rfl).mpr ⟨⟨"p", rfl, by decide⟩, rfl⟩,
   (validateReference_spec.2.1 _ rfl).mpr ⟨⟨"file:///x", rfl, by decide⟩, rfl⟩,
   validateReference_spec.2.2 _ (by decide) (by decide)⟩

/-! ### Item-count progress failure (C10) -/

/-- C10: completed = 1 of total = 2 are valid item counts, yet
    `NewProgressWithItems` fails: it converts them to the percentage 50
    (inside [0,100]) and then applies `WithProgressTotal 2`, which rejects
    a progress of 50 exceeding the total 2. -/
theorem progressWithItems_percentage_failure :
    (0 : Int) ≤ 1 ∧ (1 : Int) ≤ 2 ∧ (0 : Int) < 2
    ∧ ((1 : Int) : ℚ) / ((2 : Int) : ℚ) * 100 = 50
    ∧ ((2 : Int) : ℚ) < ((1 : Int) : ℚ) / ((2 : Int) : ℚ) * 100
    ∧ NewProgressWithItems 7 1 2
      = .error ("applying progress notification option: "
          ++ "progress cannot exceed total") := by
  refine ⟨by norm_num, by norm_num, by norm_num, by norm_num, by norm_num, ?_⟩
  norm_num [NewProgressWithItems, NewProgressNotification, applyOptions,
    WithProgressTotal, progressBase]

end GoMcp
